import Mathlib

/-!
Shallow embedding of the Trading Decision & Position Engine
(`trading_bot.py`, class `TradingBot`) of the somber repository.

Modelling conventions:
* Prices, amounts, balances and PnL are rationals (`ℚ`).
* Calendar dates are day numbers (`ℕ`); `datetime.now().date()` becomes an
  explicit `today` input.
* The Python `positions` dict is an association list `List (String × Position)`
  with dict-style insertion (`dictInsert`), so keys stay unique.
* Exchange calls are inputs in an `Env` record: a `none`/`fetchFail` value means
  the corresponding call raised and the code's own `try/except` turned it into
  `{}` / `(None, None)` as in the source.
-/

/-- Signal direction (`'buy'`, `'sell'` or `'hold'` strings in the source). -/
inductive Signal : Type
  | buy
  | sell
  | hold
deriving DecidableEq

/-- One entry of `TradingBot.positions` (the dict stored at
`self.positions[symbol] = {...}` in `execute_trade`). -/
structure Position : Type where
  side : Signal
  amount : ℚ
  entry_price : ℚ
  timestamp : ℕ
  order_id : Option ℕ
deriving DecidableEq

/-- The mutable fields of the `TradingBot` instance together with its
configuration fields (which the code never writes after `__init__`). -/
structure BotState : Type where
  exchange_name : String
  sandbox : Bool
  trade_amount : ℚ
  stop_loss_percent : ℚ
  take_profit_percent : ℚ
  max_positions : ℕ
  max_daily_loss : ℚ
  min_balance : ℚ
  is_trading : Bool
  positions : List (String × Position)
  daily_pnl : ℚ
  last_reset_date : ℕ
deriving DecidableEq

/-- Outcome of `get_balance`: `fetchFail` models `fetch_balance` raising (the
method returns `{}`); `fetched v` models a successful fetch where `v` is the
`'free'` field of the `'USDT'` entry (`none` when the key is absent). -/
inductive BalanceResult : Type
  | fetchFail
  | fetched (free : Option ℚ)
deriving DecidableEq

/-- The value `balance.get('USDT', {}).get('free', 0)` computed in
`check_risk_management`: every failure mode collapses to `0`. -/
def usdtFree : BalanceResult → ℚ
  | .fetchFail => 0
  | .fetched none => 0
  | .fetched (some b) => b

/-- `TradingBot.calculate_sma`: `None` when the history is shorter than the
period, otherwise the mean of the trailing `period` prices
(`sum(prices[-period:]) / period`). -/
def calculate_sma (prices : List ℚ) (period : ℕ) : Option ℚ :=
  if prices.length < period then none
  else some ((prices.drop (prices.length - period)).sum / (period : ℚ))

/-- `TradingBot.simple_strategy`, as a function of the closing prices the
OHLCV fetch produced (an empty list covers both a fetch failure and empty
data: `if not ohlcv`). The inner `sma = 0` guards model the fact that a
`ZeroDivisionError` in the confidence expression is caught by the
surrounding `try`, which returns `('hold', 0.0)`. -/
def simple_strategy (closes : List ℚ) : Signal × ℚ :=
  if closes.isEmpty then (.hold, 0)
  else
    match calculate_sma closes 20, calculate_sma closes 50 with
    | some sma_20, some sma_50 =>
        let current_price := closes.getLastD 0
        if sma_50 < sma_20 ∧ sma_20 < current_price then
          if sma_50 = 0 then (.hold, 0)
          else (.buy, min ((sma_20 - sma_50) / sma_50 * 100) 1)
        else if sma_20 < sma_50 ∧ current_price < sma_20 then
          if sma_20 = 0 then (.hold, 0)
          else (.sell, min ((sma_50 - sma_20) / sma_20 * 100) 1)
        else (.hold, 0)
    | _, _ => (.hold, 0)

/-- The spec's stated buy-side confidence:
`clamp((short-SMA − long-SMA)/long-SMA, 0, 1)`.  Stated from the spec's words,
to be compared against `simple_strategy`. -/
def spec_confidence_buy (sma_short sma_long : ℚ) : ℚ :=
  max 0 (min ((sma_short - sma_long) / sma_long) 1)

/-- A 50-candle close history: 30 closes at 100, then 19 at 101, then one
at 102.  Long enough for both SMAs; produces a buy signal. -/
def demoCloses : List ℚ := List.replicate 30 100 ++ List.replicate 19 101 ++ [102]

/-- Evaluation of the two SMAs and the strategy on `demoCloses`. -/
lemma demoCloses_sma_20 : calculate_sma demoCloses 20 = some (2021 / 20) := by
  norm_num [calculate_sma, demoCloses, List.replicate]

lemma demoCloses_sma_50 : calculate_sma demoCloses 50 = some (5021 / 50) := by
  norm_num [calculate_sma, demoCloses, List.replicate]

lemma demoCloses_strategy : simple_strategy demoCloses = (.buy, 3150 / 5021) := by
  simp only [simple_strategy, demoCloses_sma_20, demoCloses_sma_50]
  norm_num [demoCloses, List.replicate, List.getLastD]

/-- `TradingBot.check_risk_management` as a state transition.  `today` is
`datetime.now().date()`, `bal` the outcome of the `get_balance` call.  The
balance comparison is reached in all the failure modes modelled by
`BalanceResult` because `get_balance` already converts a raised fetch error
into `{}` (so the surrounding `try/except: pass` has nothing to catch and
the comparison sees `0`). -/
def check_risk_management (s : BotState) (today : ℕ) (bal : BalanceResult) :
    Bool × BotState :=
  let s1 := if s.last_reset_date < today
    then { s with daily_pnl := 0, last_reset_date := today } else s
  if s1.daily_pnl ≤ -s1.max_daily_loss then (false, s1)
  else if usdtFree bal < s1.min_balance then (false, s1)
  else if s1.max_positions ≤ s1.positions.length then (false, s1)
  else (true, s1)

/-- A protective order as submitted by `set_stop_loss_take_profit`:
its trigger/limit price, the order quantity, and the exchange order id. -/
structure ExitOrder : Type where
  price : ℚ
  quantity : ℚ
  oid : ℕ
deriving DecidableEq

/-- `TradingBot.set_stop_loss_take_profit`.  `stop_id`/`tp_id` are the ids of
the two `create_order` exchange calls (`none` = the call raised).  A raised
call makes the whole method return `(None, None)` (the `except` branch),
modelled by the `none` result; otherwise the pair of submitted orders is
returned, carrying the computed stop/take-profit prices. -/
def set_stop_loss_take_profit (slp tpp : ℚ) (side : Signal) (entry_price : ℚ)
    (amount : ℚ) (stop_id tp_id : Option ℕ) : Option (ExitOrder × ExitOrder) :=
  if side = .buy then
    let stop_loss_price := entry_price * (1 - slp / 100)
    let take_profit_price := entry_price * (1 + tpp / 100)
    match stop_id, tp_id with
    | some sid, some tid =>
        some (⟨stop_loss_price, amount, sid⟩, ⟨take_profit_price, amount, tid⟩)
    | _, _ => none
  else
    let stop_loss_price := entry_price * (1 + slp / 100)
    let take_profit_price := entry_price * (1 - tpp / 100)
    match stop_id, tp_id with
    | some sid, some tid =>
        some (⟨stop_loss_price, amount, sid⟩, ⟨take_profit_price, amount, tid⟩)
    | _, _ => none

/-- The exchange-side inputs consumed by one `execute_trade` call:
the current date, the `get_balance` outcome, the closing prices the OHLCV
fetch produced, the `'last'` field of the fetched ticker (`none` = ticker
fetch failed or `'last'` missing/None, in which case `ticker.get('last', 0)`
yields `0`), and the ids of the entry / stop / take-profit `create_order`
calls (`none` = the call raised, so the wrapper returned `{}`). -/
structure Env : Type where
  today : ℕ
  balance : BalanceResult
  closes : List ℚ
  ticker_last : Option ℚ
  entry_order_id : Option ℕ
  stop_id : Option ℕ
  tp_id : Option ℕ
deriving DecidableEq

/-- Python-dict insertion `d[k] = v` on an association list: replaces the
value at an existing key in place, otherwise appends. -/
def dictInsert (k : String) (v : Position) :
    List (String × Position) → List (String × Position)
  | [] => [(k, v)]
  | (k1, v1) :: rest =>
      if k1 = k then (k, v) :: rest else (k1, v1) :: dictInsert k v rest

/-- Python-dict lookup `d.get(k)` on an association list. -/
def dictLookup (k : String) : List (String × Position) → Option Position
  | [] => none
  | (k1, v1) :: rest => if k1 = k then some v1 else dictLookup k rest

/-- Result of one `execute_trade` call: the returned order id (`None` in
Python becomes `none`), whether the protective-exit submission
(`set_stop_loss_take_profit`) was reached at all, and the bot state
afterwards. -/
structure ExecResult : Type where
  order : Option ℕ
  exits_attempted : Bool
  state : BotState
deriving DecidableEq

/-- `TradingBot.execute_trade` for instrument `sym`, in state `s`, with the
exchange responses `env`.  Mirrors the source: risk gate first, then the
strategy signal with the 0.3 confidence threshold, then the ticker price
(`if not current_price` rejects exactly price `0`), sizing
`amount = trade_amount / current_price`, entry submission (a raised
`create_order` makes `place_order` return `{}`, which is falsy, so the
method falls through and returns `None`), then best-effort protective exits
(result discarded) and the position record `self.positions[symbol] = {...}`. -/
def execute_trade (sym : String) (s : BotState) (env : Env) : ExecResult :=
  let rc := check_risk_management s env.today env.balance
  let s1 := rc.2
  if !rc.1 then ⟨none, false, s1⟩
  else
    let sc := simple_strategy env.closes
    if sc.1 = .hold ∨ sc.2 < 3 / 10 then ⟨none, false, s1⟩
    else
      let current_price := (env.ticker_last).getD 0
      if current_price = 0 then ⟨none, false, s1⟩
      else
        let amount := s1.trade_amount / current_price
        match env.entry_order_id with
        | none => ⟨none, false, s1⟩
        | some oid =>
            let _exits := set_stop_loss_take_profit s1.stop_loss_percent
              s1.take_profit_percent sc.1 current_price amount env.stop_id env.tp_id
            let pos : Position := ⟨sc.1, amount, current_price, env.today, some oid⟩
            ⟨some oid, true, { s1 with positions := dictInsert sym pos s1.positions }⟩

/-- `TradingBot.start_trading`. -/
def start_trading (s : BotState) : BotState := { s with is_trading := true }

/-- `TradingBot.stop_trading`. -/
def stop_trading (s : BotState) : BotState := { s with is_trading := false }

/-- The dict returned by `TradingBot.get_status`. -/
structure Status : Type where
  is_trading : Bool
  positions : ℕ
  daily_pnl : ℚ
  exchange : String
  sandbox : Bool
deriving DecidableEq

/-- `TradingBot.get_status`: a pure read of the state (the source body is a
single dict literal over `self` fields, with no assignment). -/
def get_status (s : BotState) : Status :=
  ⟨s.is_trading, s.positions.length, s.daily_pnl, s.exchange_name, s.sandbox⟩

/-- The spec's ledger invariant: unique instrument keys, positive quantity,
positive entry price. -/
def ledger_invariant (ps : List (String × Position)) : Prop :=
  (ps.map Prod.fst).Nodup ∧ ∀ q ∈ ps, 0 < q.2.amount ∧ 0 < q.2.entry_price

instance (ps : List (String × Position)) : Decidable (ledger_invariant ps) := by
  unfold ledger_invariant; infer_instance

/-- The bot state produced by `__init__` under the documented default
configuration (`TRADE_AMOUNT=10`, `STOP_LOSS_PERCENT=2`,
`TAKE_PROFIT_PERCENT=5`, `MAX_POSITIONS=3`, `MAX_DAILY_LOSS=100`,
`MIN_BALANCE=50`), with day number `0` as the start date. -/
def baseState : BotState :=
  { exchange_name := "binance", sandbox := true, trade_amount := 10,
    stop_loss_percent := 2, take_profit_percent := 5, max_positions := 3,
    max_daily_loss := 100, min_balance := 50, is_trading := false,
    positions := [], daily_pnl := 0, last_reset_date := 0 }

/-! ### Helper lemmas -/

/-- The state returned by the risk gate is the input state with the daily
rollover applied, independent of the verdict. -/
lemma check_risk_management_state (s : BotState) (today : ℕ) (bal : BalanceResult) :
    (check_risk_management s today bal).2 =
      if s.last_reset_date < today
      then { s with daily_pnl := 0, last_reset_date := today } else s := by
  unfold check_risk_management
  split <;> dsimp only <;> split <;> try rfl
  all_goals split <;> try rfl
  all_goals split <;> rfl

/-- The risk gate never touches the positions ledger. -/
lemma check_risk_management_positions (s : BotState) (today : ℕ) (bal : BalanceResult) :
    (check_risk_management s today bal).2.positions = s.positions := by
  rw [check_risk_management_state]; split <;> rfl

/-- The risk gate never touches the configuration fields. -/
lemma check_risk_management_config (s : BotState) (today : ℕ) (bal : BalanceResult) :
    (check_risk_management s today bal).2.trade_amount = s.trade_amount ∧
    (check_risk_management s today bal).2.stop_loss_percent = s.stop_loss_percent ∧
    (check_risk_management s today bal).2.take_profit_percent = s.take_profit_percent := by
  rw [check_risk_management_state]; split <;> exact ⟨rfl, rfl, rfl⟩

lemma dictLookup_dictInsert_self (k : String) (v : Position)
    (ps : List (String × Position)) : dictLookup k (dictInsert k v ps) = some v := by
  induction ps with
  | nil => simp [dictInsert, dictLookup]
  | cons hd tl ih =>
      obtain ⟨k1, v1⟩ := hd
      by_cases h : k1 = k <;> simp [dictInsert, dictLookup, h, ih]

lemma mem_dictInsert (k : String) (v : Position) (ps : List (String × Position))
    (q : String × Position) (hq : q ∈ dictInsert k v ps) : q = (k, v) ∨ q ∈ ps := by
  induction ps with
  | nil => simpa [dictInsert] using hq
  | cons hd tl ih =>
      obtain ⟨k1, v1⟩ := hd
      by_cases h : k1 = k
      · simp only [dictInsert, if_pos h, List.mem_cons] at hq
        rcases hq with hq | hq
        · exact Or.inl hq
        · exact Or.inr (List.mem_cons_of_mem _ hq)
      · simp only [dictInsert, if_neg h, List.mem_cons] at hq
        rcases hq with hq | hq
        · exact Or.inr (by simp [hq])
        · rcases ih hq with h1 | h1
          · exact Or.inl h1
          · exact Or.inr (List.mem_cons_of_mem _ h1)

lemma keys_dictInsert (k : String) (v : Position) (ps : List (String × Position)) :
    ((dictInsert k v ps).map Prod.fst) =
      if k ∈ ps.map Prod.fst then ps.map Prod.fst
      else ps.map Prod.fst ++ [k] := by
  induction ps with
  | nil => simp [dictInsert]
  | cons hd tl ih =>
      obtain ⟨k1, v1⟩ := hd
      by_cases h : k1 = k
      · subst h; simp [dictInsert]
      · have h2 : ¬ k = k1 := fun hh => h hh.symm
        simp only [dictInsert, if_neg h, List.map_cons, List.mem_cons, h2,
          false_or, ih]
        split <;> simp

lemma keys_dictInsert_nodup (k : String) (v : Position)
    (ps : List (String × Position)) (h : (ps.map Prod.fst).Nodup) :
    ((dictInsert k v ps).map Prod.fst).Nodup := by
  rw [keys_dictInsert]
  split
  · exact h
  · next hk => simpa [List.nodup_append, hk] using h

/-- A raised stop-order call makes `set_stop_loss_take_profit` return
`(None, None)`, of either side. -/
lemma set_stop_loss_take_profit_fail (slp tpp : ℚ) (side : Signal) (p a : ℚ)
    (t : Option ℕ) : set_stop_loss_take_profit slp tpp side p a none t = none := by
  unfold set_stop_loss_take_profit
  split <;> cases t <;> rfl

lemma ledger_invariant_dictInsert (k : String) (v : Position)
    (ps : List (String × Position)) (hinv : ledger_invariant ps)
    (hv1 : 0 < v.amount) (hv2 : 0 < v.entry_price) :
    ledger_invariant (dictInsert k v ps) := by
  refine ⟨keys_dictInsert_nodup k v ps hinv.1, ?_⟩
  intro q hq
  rcases mem_dictInsert k v ps q hq with h | h
  · rw [h]; exact ⟨hv1, hv2⟩
  · exact hinv.2 q h

/-- Full characterization of a successful `execute_trade` run: gate allows,
signal is actionable, price is nonzero, entry submission succeeds. -/
lemma execute_trade_success (sym : String) (s : BotState) (env : Env) (oid : ℕ)
    (hgate : (check_risk_management s env.today env.balance).1 = true)
    (hhold : (simple_strategy env.closes).1 ≠ .hold)
    (hconf : ¬ (simple_strategy env.closes).2 < 3 / 10)
    (hprice : env.ticker_last.getD 0 ≠ 0)
    (hentry : env.entry_order_id = some oid) :
    execute_trade sym s env =
      ⟨some oid, true,
        { (check_risk_management s env.today env.balance).2 with
          positions := dictInsert sym
            ⟨(simple_strategy env.closes).1,
             s.trade_amount / env.ticker_last.getD 0,
             env.ticker_last.getD 0, env.today, some oid⟩ s.positions }⟩ := by
  have hpos := check_risk_management_positions s env.today env.balance
  have hcfg := (check_risk_management_config s env.today env.balance).1
  unfold execute_trade
  simp only [hgate, Bool.not_true, Bool.false_eq_true, if_false, hentry]
  rw [if_neg (not_or.mpr ⟨hhold, hconf⟩), if_neg hprice]
  rw [hcfg, hpos]

/-- Inversion: if `execute_trade` returned an order, every guard passed and
the run is the successful one. -/
lemma execute_trade_order_some (sym : String) (s : BotState) (env : Env) (oid : ℕ)
    (h : (execute_trade sym s env).order = some oid) :
    (check_risk_management s env.today env.balance).1 = true ∧
    (simple_strategy env.closes).1 ≠ .hold ∧
    ¬ (simple_strategy env.closes).2 < 3 / 10 ∧
    env.ticker_last.getD 0 ≠ 0 ∧
    env.entry_order_id = some oid := by
  by_cases hgate : (check_risk_management s env.today env.balance).1 = true
  case neg =>
    exfalso
    have hg : (check_risk_management s env.today env.balance).1 = false := by
      revert hgate; cases (check_risk_management s env.today env.balance).1 <;> simp
    have : execute_trade sym s env =
        ⟨none, false, (check_risk_management s env.today env.balance).2⟩ := by
      unfold execute_trade
      simp [hg]
    rw [this] at h; exact Option.noConfusion h
  case pos =>
    by_cases hsig : (simple_strategy env.closes).1 = .hold ∨
        (simple_strategy env.closes).2 < 3 / 10
    · exfalso
      have : execute_trade sym s env =
          ⟨none, false, (check_risk_management s env.today env.balance).2⟩ := by
        unfold execute_trade
        simp only [hgate, Bool.not_true, Bool.false_eq_true, if_false]
        rw [if_pos hsig]
      rw [this] at h; exact Option.noConfusion h
    · rw [not_or] at hsig
      by_cases hpr : env.ticker_last.getD 0 = 0
      · exfalso
        have : execute_trade sym s env =
            ⟨none, false, (check_risk_management s env.today env.balance).2⟩ := by
          unfold execute_trade
          simp only [hgate, Bool.not_true, Bool.false_eq_true, if_false]
          rw [if_neg (not_or.mpr ⟨hsig.1, hsig.2⟩), if_pos hpr]
        rw [this] at h; exact Option.noConfusion h
      · cases hentry : env.entry_order_id with
        | none =>
            exfalso
            have : execute_trade sym s env =
                ⟨none, false, (check_risk_management s env.today env.balance).2⟩ := by
              unfold execute_trade
              simp only [hgate, Bool.not_true, Bool.false_eq_true, if_false, hentry]
              rw [if_neg (not_or.mpr ⟨hsig.1, hsig.2⟩), if_neg hpr]
            rw [this] at h; exact Option.noConfusion h
        | some o =>
            have := execute_trade_success sym s env o hgate hsig.1 hsig.2 hpr hentry
            rw [this] at h
            cases h
            exact ⟨hgate, hsig.1, hsig.2, hpr, rfl⟩

/-! ### Claims -/

/-- C6: whenever the current date is later than the last-reset date,
`check_risk_management` zeroes `daily_pnl` and updates `last_reset_date`
as a side effect applied before any check and kept even on a deny (the
returned state is the same in every branch); after the rollover the verdict
no longer depends on the prior day's PnL at all, and with a positive loss
limit (and the other two checks passing) the gate allows, so a prior day's
loss at the daily-loss limit no longer causes denial. -/
theorem check_risk_management_daily_rollover (s : BotState) (today : ℕ)
    (bal : BalanceResult) (h : s.last_reset_date < today) :
    (check_risk_management s today bal).2.daily_pnl = 0 ∧
    (check_risk_management s today bal).2.last_reset_date = today ∧
    (∀ q : ℚ, check_risk_management { s with daily_pnl := q } today bal =
      check_risk_management s today bal) ∧
    (0 < s.max_daily_loss → ¬ usdtFree bal < s.min_balance →
      s.positions.length < s.max_positions →
      (check_risk_management s today bal).1 = true) := by
  refine ⟨?_, ?_, ?_, ?_⟩
  · rw [check_risk_management_state, if_pos h]
  · rw [check_risk_management_state, if_pos h]
  · intro q
    unfold check_risk_management
    simp only [BotState.mk.injEq]
    rw [if_pos h, if_pos (show BotState.last_reset_date { s with daily_pnl := q } < today from h)]
  · intro hmax hbal hpos
    have h1 : ¬ (0 : ℚ) ≤ -s.max_daily_loss := by linarith
    unfold check_risk_management
    rw [if_pos h]
    dsimp only
    rw [if_neg h1, if_neg hbal, if_neg (Nat.not_le.mpr hpos)]

/-- C6 witness: a state that ended the prior day exactly at the loss limit
is reset and allowed on the first gate call of the next day. -/
theorem check_risk_management_daily_rollover_witness :
    (check_risk_management { baseState with daily_pnl := -100 } 1
      (.fetched (some 1000))).2.daily_pnl = 0 ∧
    (check_risk_management { baseState with daily_pnl := -100 } 1
      (.fetched (some 1000))).1 = true := by
  have h := check_risk_management_daily_rollover { baseState with daily_pnl := -100 } 1
    (.fetched (some 1000)) (by norm_num [baseState])
  exact ⟨h.1, h.2.2.2 (by norm_num [baseState]) (by norm_num [baseState, usdtFree])
    (by norm_num [baseState])⟩

/-- C7: if the entry order submission fails (`place_order` returns `{}`),
`execute_trade` returns `None`, the protective-exit submission is never
reached, and the only state change is the gate's daily rollover — in
particular the positions ledger is untouched. -/
theorem execute_trade_entry_failure (sym : String) (s : BotState) (env : Env)
    (h : env.entry_order_id = none) :
    execute_trade sym s env =
      ⟨none, false, (check_risk_management s env.today env.balance).2⟩ ∧
    (execute_trade sym s env).state.positions = s.positions := by
  have hmain : execute_trade sym s env =
      ⟨none, false, (check_risk_management s env.today env.balance).2⟩ := by
    unfold execute_trade
    simp only [h]
    split
    · rfl
    · split
      · rfl
      · split
        · rfl
        · rfl
  refine ⟨hmain, ?_⟩
  rw [hmain]
  exact check_risk_management_positions s env.today env.balance

/-- A deterministic environment in which every exchange call succeeds: the
balance fetch reports 1000 free USDT, the OHLCV fetch returns `demoCloses`
(a buy signal with confidence 3150/5021 ≥ 0.3), the ticker last price is
200, and the three order submissions get ids 7, 8, 9. -/
def okEnv : Env :=
  { today := 0, balance := .fetched (some 1000), closes := demoCloses,
    ticker_last := some 200, entry_order_id := some 7, stop_id := some 8,
    tp_id := some 9 }

/-- `okEnv` with a failed entry submission and no exit ids. -/
def entryFailEnv : Env := { okEnv with entry_order_id := none, stop_id := none, tp_id := none }

lemma baseState_gate_ok (ps : List (String × Position)) (hlen : ps.length < 3) :
    (check_risk_management { baseState with positions := ps } 0
      (.fetched (some 1000))).1 = true := by
  unfold check_risk_management
  norm_num [baseState, usdtFree]
  rw [if_neg (Nat.not_le.mpr hlen)]

/-- C7 witness: concrete run with a failed entry order: no order returned, no
exits attempted, state (hence ledger) unchanged. -/
theorem execute_trade_entry_failure_witness :
    execute_trade "BTC/USDT" baseState entryFailEnv = ⟨none, false, baseState⟩ := by
  have h := (execute_trade_entry_failure "BTC/USDT" baseState entryFailEnv rfl).1
  rw [h, check_risk_management_state]
  norm_num [baseState, entryFailEnv, okEnv]

/-- C9: the protective prices submitted by `set_stop_loss_take_profit`: for a
buy entry at price `p`, stop `p * (1 − slp/100)` and take-profit
`p * (1 + tpp/100)`; mirrored for a sell entry; and concretely an entry at
100 with a 2% stop and 5% take-profit yields stop 98 and take-profit 105. -/
theorem set_stop_loss_take_profit_prices (slp tpp p a : ℚ) (sid tid : ℕ) :
    set_stop_loss_take_profit slp tpp .buy p a (some sid) (some tid) =
      some (⟨p * (1 - slp / 100), a, sid⟩, ⟨p * (1 + tpp / 100), a, tid⟩) ∧
    set_stop_loss_take_profit slp tpp .sell p a (some sid) (some tid) =
      some (⟨p * (1 + slp / 100), a, sid⟩, ⟨p * (1 - tpp / 100), a, tid⟩) ∧
    set_stop_loss_take_profit 2 5 .buy 100 a (some sid) (some tid) =
      some (⟨98, a, sid⟩, ⟨105, a, tid⟩) := by
  refine ⟨rfl, rfl, ?_⟩
  norm_num [set_stop_loss_take_profit]

/-- C10: `get_status` reports the stored trading flag, open-position count
and daily PnL as-is; it applies no daily rollover, so past a day boundary it
still reports the previous day's PnL, which only the next risk-gate call
resets to 0. -/
theorem get_status_no_rollover (s : BotState) (today : ℕ) (bal : BalanceResult)
    (h : s.last_reset_date < today) :
    get_status s = ⟨s.is_trading, s.positions.length, s.daily_pnl,
      s.exchange_name, s.sandbox⟩ ∧
    (get_status (check_risk_management s today bal).2).daily_pnl = 0 ∧
    (s.daily_pnl ≠ 0 → (get_status s).daily_pnl ≠
      (get_status (check_risk_management s today bal).2).daily_pnl) := by
  refine ⟨rfl, ?_, ?_⟩
  · rw [check_risk_management_state, if_pos h]; rfl
  · intro hq
    rw [check_risk_management_state, if_pos h]
    simpa [get_status] using hq

/-- C10 witness: with yesterday's PnL at 5, `get_status` still reports 5
after the day boundary; after one gate call it reports 0. -/
theorem get_status_no_rollover_witness :
    (get_status { baseState with daily_pnl := 5 }).daily_pnl = 5 ∧
    (get_status (check_risk_management { baseState with daily_pnl := 5 } 1
      .fetchFail).2).daily_pnl = 0 := by
  have h := get_status_no_rollover { baseState with daily_pnl := 5 } 1 .fetchFail
    (by norm_num [baseState])
  exact ⟨by rw [h.1], h.2.1⟩

/-- C2 counterexample: with an otherwise healthy state (zero PnL, empty
ledger), a failed balance fetch alone flips the gate from allow to deny:
`get_balance` converts the raised fetch into `{}`, the free balance reads
as `0 < minBalance = 50`, and the gate returns `False` — it does not skip
the check. -/
theorem check_risk_management_balance_fetch_cex :
    (check_risk_management baseState 0 .fetchFail).1 = false ∧
    (check_risk_management baseState 0 (.fetched (some 1000))).1 = true := by
  constructor <;> norm_num [check_risk_management, baseState, usdtFree]

/-- C2 amended: a balance-fetch failure is treated as a free balance of `0`,
so whenever `minBalance > 0` (and the loss-limit check passes) the gate
denies on a fetch failure; the check is not skipped. -/
theorem check_risk_management_balance_fetch_denies (s : BotState) (today : ℕ)
    (hp : ¬ s.daily_pnl ≤ -s.max_daily_loss) (hm : 0 < s.max_daily_loss)
    (hmin : 0 < s.min_balance) :
    (check_risk_management s today .fetchFail).1 = false := by
  have h0 : ¬ (0 : ℚ) ≤ -s.max_daily_loss := by linarith
  unfold check_risk_management
  by_cases hr : s.last_reset_date < today
  · rw [if_pos hr]
    dsimp only
    rw [if_neg h0, if_pos (by simpa [usdtFree] using hmin)]
  · rw [if_neg hr]
    dsimp only
    rw [if_neg hp, if_pos (by simpa [usdtFree] using hmin)]

/-- C2 amended witness: the default startup state is denied on a balance
fetch failure. -/
theorem check_risk_management_balance_fetch_denies_witness :
    (check_risk_management baseState 3 .fetchFail).1 = false :=
  check_risk_management_balance_fetch_denies baseState 3 (by norm_num [baseState])
    (by norm_num [baseState]) (by norm_num [baseState])

/-- C3 counterexample: on `demoCloses` the code returns a buy with
confidence `3150/5021 ≈ 0.627`, which is 100 times the spec's stated
`clamp((short-SMA − long-SMA)/long-SMA, 0, 1) = 63/10042 ≈ 0.00627`:
the source multiplies the ratio by 100 before capping at 1. -/
theorem simple_strategy_confidence_cex :
    (simple_strategy demoCloses).1 = .buy ∧
    (simple_strategy demoCloses).2 ≠
      spec_confidence_buy ((calculate_sma demoCloses 20).getD 0)
        ((calculate_sma demoCloses 50).getD 0) := by
  rw [demoCloses_strategy, demoCloses_sma_20, demoCloses_sma_50]
  refine ⟨rfl, ?_⟩
  norm_num [spec_confidence_buy]

/-- C3 amended: with both SMAs defined, the strategy returns `buy` with
confidence `min(100·(shortSMA − longSMA)/longSMA, 1)` when
shortSMA > longSMA and the latest price exceeds shortSMA (the ratio is
scaled by 100 and only capped above at 1, with no lower clamp at 0);
symmetrically `sell` with `min(100·(longSMA − shortSMA)/shortSMA, 1)`;
otherwise `hold` with confidence 0.  (The `≠ 0` hypotheses exclude the
division-by-zero path, which the source's `except` turns into `hold`.) -/
theorem simple_strategy_branches (closes : List ℚ) (sma_20 sma_50 : ℚ)
    (hne : closes ≠ []) (h20 : calculate_sma closes 20 = some sma_20)
    (h50 : calculate_sma closes 50 = some sma_50) :
    (sma_50 < sma_20 → sma_20 < closes.getLastD 0 → sma_50 ≠ 0 →
      simple_strategy closes = (.buy, min ((sma_20 - sma_50) / sma_50 * 100) 1)) ∧
    (sma_20 < sma_50 → closes.getLastD 0 < sma_20 → sma_20 ≠ 0 →
      simple_strategy closes = (.sell, min ((sma_50 - sma_20) / sma_20 * 100) 1)) ∧
    (¬ (sma_50 < sma_20 ∧ sma_20 < closes.getLastD 0) →
     ¬ (sma_20 < sma_50 ∧ closes.getLastD 0 < sma_20) →
      simple_strategy closes = (.hold, 0)) := by
  have hne2 : closes.isEmpty = false := by simpa [List.isEmpty_iff] using hne
  refine ⟨?_, ?_, ?_⟩
  · intro h1 h2 h3
    unfold simple_strategy
    simp only [hne2, Bool.false_eq_true, if_false, h20, h50]
    rw [if_pos ⟨h1, h2⟩, if_neg h3]
  · intro h1 h2 h3
    unfold simple_strategy
    simp only [hne2, Bool.false_eq_true, if_false, h20, h50]
    rw [if_neg (by rintro ⟨ha, hb⟩; exact absurd h1 (not_lt.mpr (le_of_lt ha))),
      if_pos ⟨h1, h2⟩, if_neg h3]
  · intro h1 h2
    unfold simple_strategy
    simp only [hne2, Bool.false_eq_true, if_false, h20, h50]
    rw [if_neg h1, if_neg h2]

/-- C3 amended witness: the buy branch on `demoCloses`. -/
theorem simple_strategy_branches_witness :
    simple_strategy demoCloses =
      (.buy, min ((2021 / 20 - 5021 / 50) / (5021 / 50) * 100) 1) := by
  have h := simple_strategy_branches demoCloses (2021 / 20) (5021 / 50)
    (by simp [demoCloses]) demoCloses_sma_20 demoCloses_sma_50
  exact h.1 (by norm_num) (by norm_num [demoCloses, List.getLastD, List.replicate])
    (by norm_num)

/-- A pre-existing open position on BTC/USDT: long 1 unit from entry 50. -/
def dupPosition : Position := ⟨.buy, 1, 50, 0, some 1⟩

/-- A state that already holds an open position on BTC/USDT. -/
def dupState : BotState := { baseState with positions := [("BTC/USDT", dupPosition)] }

/-- C1 counterexample: with BTC/USDT already open, a second `execute_trade`
on BTC/USDT does not fail: it returns the new order id 7 and silently
replaces the recorded position (`self.positions[symbol] = {...}` is an
unconditional dict store; no `DuplicatePosition` check exists). -/
theorem execute_trade_duplicate_cex :
    dictLookup "BTC/USDT" dupState.positions = some dupPosition ∧
    (execute_trade "BTC/USDT" dupState okEnv).order = some 7 ∧
    dictLookup "BTC/USDT" (execute_trade "BTC/USDT" dupState okEnv).state.positions =
      some ⟨.buy, 1 / 20, 200, 0, some 7⟩ ∧
    (⟨.buy, 1 / 20, 200, 0, some 7⟩ : Position) ≠ dupPosition := by
  have hgate : (check_risk_management dupState okEnv.today okEnv.balance).1 = true := by
    have := baseState_gate_ok [("BTC/USDT", dupPosition)] (by norm_num)
    simpa [dupState, okEnv] using this
  have h := execute_trade_success "BTC/USDT" dupState okEnv 7 hgate
    (by rw [show okEnv.closes = demoCloses from rfl, demoCloses_strategy]; simp)
    (by rw [show okEnv.closes = demoCloses from rfl, demoCloses_strategy]; norm_num)
    (by norm_num [okEnv]) rfl
  refine ⟨rfl, ?_, ?_, by simp [dupPosition, Position.mk.injEq]⟩
  · rw [h]
  · rw [h]
    have : (simple_strategy okEnv.closes).1 = .buy := by
      rw [show okEnv.closes = demoCloses from rfl, demoCloses_strategy]
    simp only [this]
    norm_num [dupState, baseState, okEnv, dictLookup, dictInsert]

/-- C1 amended: a second open on an instrument that already has a recorded
position does not fail with `DuplicatePosition`: when every guard passes,
`execute_trade` returns the new order and overwrites the ledger entry for
that instrument with the freshly opened position (last write wins). -/
theorem execute_trade_duplicate_overwrites (sym : String) (s : BotState)
    (env : Env) (p0 : Position)
    (hdup : dictLookup sym s.positions = some p0)
    (hgate : (check_risk_management s env.today env.balance).1 = true)
    (hhold : (simple_strategy env.closes).1 ≠ .hold)
    (hconf : ¬ (simple_strategy env.closes).2 < 3 / 10)
    (hprice : env.ticker_last.getD 0 ≠ 0)
    (oid : ℕ) (hentry : env.entry_order_id = some oid) :
    (execute_trade sym s env).order = some oid ∧
    dictLookup sym (execute_trade sym s env).state.positions =
      some ⟨(simple_strategy env.closes).1,
            s.trade_amount / env.ticker_last.getD 0,
            env.ticker_last.getD 0, env.today, some oid⟩ := by
  rw [execute_trade_success sym s env oid hgate hhold hconf hprice hentry]
  exact ⟨rfl, dictLookup_dictInsert_self sym _ s.positions⟩

/-- C1 amended witness: the concrete overwrite of `dupPosition`. -/
theorem execute_trade_duplicate_overwrites_witness :
    (execute_trade "BTC/USDT" dupState okEnv).order = some 7 ∧
    dictLookup "BTC/USDT" (execute_trade "BTC/USDT" dupState okEnv).state.positions =
      some ⟨(simple_strategy okEnv.closes).1,
            dupState.trade_amount / okEnv.ticker_last.getD 0,
            okEnv.ticker_last.getD 0, okEnv.today, some 7⟩ := by
  refine execute_trade_duplicate_overwrites "BTC/USDT" dupState okEnv dupPosition
    rfl ?_ ?_ ?_ (by norm_num [okEnv]) 7 rfl
  · have := baseState_gate_ok [("BTC/USDT", dupPosition)] (by norm_num)
    simpa [dupState, okEnv] using this
  · rw [show okEnv.closes = demoCloses from rfl, demoCloses_strategy]; simp
  · rw [show okEnv.closes = demoCloses from rfl, demoCloses_strategy]; norm_num

/-- `okEnv` with a negative ticker price: `-1` is truthy in Python, so
`if not current_price` does not reject it. -/
def negEnv : Env := { okEnv with ticker_last := some (-1), entry_order_id := some 5 }

/-- C4 counterexample: at current price `-1 ≤ 0` the trade is *not* treated
as no-trade: `execute_trade` returns order id 5 and records a position
(with negative quantity `10 / -1 = -10`), because the source only rejects a
falsy price (`0`/missing), not a non-positive one. -/
theorem execute_trade_negative_price_cex :
    ((-1 : ℚ) ≤ 0) ∧
    negEnv.ticker_last = some (-1) ∧
    (execute_trade "BTC/USDT" baseState negEnv).order = some 5 ∧
    (execute_trade "BTC/USDT" baseState negEnv).state.positions ≠
      baseState.positions := by
  have hgate : (check_risk_management baseState negEnv.today negEnv.balance).1 = true := by
    have := baseState_gate_ok [] (by norm_num)
    simpa [baseState, negEnv, okEnv] using this
  have h := execute_trade_success "BTC/USDT" baseState negEnv 5 hgate
    (by rw [show negEnv.closes = demoCloses from rfl, demoCloses_strategy]; simp)
    (by rw [show negEnv.closes = demoCloses from rfl, demoCloses_strategy]; norm_num)
    (by norm_num [negEnv, okEnv]) rfl
  refine ⟨by norm_num, rfl, by rw [h], ?_⟩
  rw [h]
  simp [baseState, dictInsert]

/-- C4 amended: a current price of exactly `0` — which is what a ticker
fetch failure or a missing/None `'last'` field produces via
`ticker.get('last', 0)` — makes `execute_trade` return `None` with the
ledger unchanged and no exit submission attempted; any *nonzero* price
(negative ones included) is accepted, and whenever an order is returned the
recorded quantity is `tradeNotional / currentPrice` at entry price
`currentPrice`. -/
theorem execute_trade_price_handling (sym : String) (s : BotState) (env : Env) :
    (env.ticker_last.getD 0 = 0 →
      (execute_trade sym s env).order = none ∧
      (execute_trade sym s env).exits_attempted = false ∧
      (execute_trade sym s env).state.positions = s.positions) ∧
    (∀ oid : ℕ, (execute_trade sym s env).order = some oid →
      dictLookup sym (execute_trade sym s env).state.positions =
        some ⟨(simple_strategy env.closes).1,
              s.trade_amount / env.ticker_last.getD 0,
              env.ticker_last.getD 0, env.today, some oid⟩) := by
  constructor
  · intro hzero
    have hmain : execute_trade sym s env =
        ⟨none, false, (check_risk_management s env.today env.balance).2⟩ := by
      unfold execute_trade
      simp [hzero]
    rw [hmain]
    exact ⟨rfl, rfl, check_risk_management_positions s env.today env.balance⟩
  · intro oid h
    obtain ⟨hgate, hhold, hconf, hprice, hentry⟩ :=
      execute_trade_order_some sym s env oid h
    rw [execute_trade_success sym s env oid hgate hhold hconf hprice hentry]
    exact dictLookup_dictInsert_self sym _ s.positions

/-- C4 amended witness: a run against a dead ticker (fetch failed, so the
price reads 0) is a no-trade with the ledger untouched, and the successful
`okEnv` run sizes the quantity as `10 / 200`. -/
theorem execute_trade_price_handling_witness :
    ((execute_trade "BTC/USDT" baseState { okEnv with ticker_last := none }).order = none ∧
     (execute_trade "BTC/USDT" baseState { okEnv with ticker_last := none }).exits_attempted = false ∧
     (execute_trade "BTC/USDT" baseState { okEnv with ticker_last := none }).state.positions =
       baseState.positions) ∧
    dictLookup "BTC/USDT"
        (execute_trade "BTC/USDT" baseState okEnv).state.positions =
      some ⟨(simple_strategy okEnv.closes).1, baseState.trade_amount / okEnv.ticker_last.getD 0,
            okEnv.ticker_last.getD 0, okEnv.today, some 7⟩ := by
  constructor
  · exact (execute_trade_price_handling "BTC/USDT" baseState
      { okEnv with ticker_last := none }).1 rfl
  · refine (execute_trade_price_handling "BTC/USDT" baseState okEnv).2 7 ?_
    have hgate : (check_risk_management baseState okEnv.today okEnv.balance).1 = true := by
      have := baseState_gate_ok [] (by norm_num)
      simpa [baseState, okEnv] using this
    rw [execute_trade_success "BTC/USDT" baseState okEnv 7 hgate
      (by rw [show okEnv.closes = demoCloses from rfl, demoCloses_strategy]; simp)
      (by rw [show okEnv.closes = demoCloses from rfl, demoCloses_strategy]; norm_num)
      (by norm_num [okEnv]) rfl]

/-- Every `execute_trade` run either takes an early exit (returning the
post-rollover state unchanged) or satisfies all four guards. -/
lemma execute_trade_shape (sym : String) (s : BotState) (env : Env) :
    execute_trade sym s env =
      ⟨none, false, (check_risk_management s env.today env.balance).2⟩ ∨
    ∃ oid : ℕ, env.entry_order_id = some oid ∧
      (check_risk_management s env.today env.balance).1 = true ∧
      (simple_strategy env.closes).1 ≠ .hold ∧
      ¬ (simple_strategy env.closes).2 < 3 / 10 ∧
      env.ticker_last.getD 0 ≠ 0 := by
  by_cases hgate : (check_risk_management s env.today env.balance).1 = true
  case neg =>
    left
    have hg : (check_risk_management s env.today env.balance).1 = false := by
      revert hgate; cases (check_risk_management s env.today env.balance).1 <;> simp
    unfold execute_trade
    simp [hg]
  case pos =>
    by_cases hsig : (simple_strategy env.closes).1 = .hold ∨
        (simple_strategy env.closes).2 < 3 / 10
    · left
      unfold execute_trade
      simp only [hgate, Bool.not_true, Bool.false_eq_true, if_false]
      rw [if_pos hsig]
    · rw [not_or] at hsig
      by_cases hpr : env.ticker_last.getD 0 = 0
      · left
        unfold execute_trade
        simp only [hgate, Bool.not_true, Bool.false_eq_true, if_false]
        rw [if_neg (not_or.mpr hsig), if_pos hpr]
      · cases hent : env.entry_order_id with
        | none =>
            left
            unfold execute_trade
            simp only [hgate, Bool.not_true, Bool.false_eq_true, if_false, hent]
            rw [if_neg (not_or.mpr hsig), if_neg hpr]
        | some o =>
            right
            exact ⟨o, rfl, hgate, hsig.1, hsig.2, hpr⟩

/-- C5 counterexample: the empty ledger satisfies the invariant, but one
`execute_trade` run against a negative ticker price records a position with
negative quantity (`10 / -1`) and negative entry price, breaking the
`quantity > 0 ∧ entryPrice > 0` invariant — no operation revalidates it. -/
theorem ledger_invariant_violated_cex :
    ledger_invariant baseState.positions ∧
    ¬ ledger_invariant (execute_trade "BTC/USDT" baseState negEnv).state.positions := by
  constructor
  · exact ⟨List.nodup_nil, by simp [baseState]⟩
  · have hgate : (check_risk_management baseState negEnv.today negEnv.balance).1 = true := by
      have := baseState_gate_ok [] (by norm_num)
      simpa [baseState, negEnv, okEnv] using this
    have h := execute_trade_success "BTC/USDT" baseState negEnv 5 hgate
      (by rw [show negEnv.closes = demoCloses from rfl, demoCloses_strategy]; simp)
      (by rw [show negEnv.closes = demoCloses from rfl, demoCloses_strategy]; norm_num)
      (by norm_num [negEnv, okEnv]) rfl
    rw [h]
    intro hcontra
    have hq := hcontra.2 ("BTC/USDT",
      ⟨(simple_strategy negEnv.closes).1,
       baseState.trade_amount / negEnv.ticker_last.getD 0,
       negEnv.ticker_last.getD 0, negEnv.today, some 5⟩)
      (by simp [baseState, dictInsert])
    norm_num [negEnv, okEnv, baseState] at hq

/-- C5 amended: the at-most-one-position-per-instrument part of the
invariant always holds (dict keys stay unique), and the positivity part is
preserved by every operation *provided* the configured trade notional is
positive and the fetched price is nonnegative: the non-ledger operations
never touch the ledger, and `execute_trade` either leaves it unchanged or
records quantity `tradeNotional / price` at entry price `price > 0`.
(Without those hypotheses the invariant can break, see the
counterexample.) -/
theorem execute_trade_preserves_ledger_invariant (sym : String) (s : BotState)
    (env : Env) (hinv : ledger_invariant s.positions)
    (hta : 0 < s.trade_amount) (hpr : 0 ≤ env.ticker_last.getD 0) :
    ledger_invariant (execute_trade sym s env).state.positions ∧
    (start_trading s).positions = s.positions ∧
    (stop_trading s).positions = s.positions ∧
    ∀ (today : ℕ) (bal : BalanceResult),
      (check_risk_management s today bal).2.positions = s.positions := by
  refine ⟨?_, rfl, rfl, fun today bal => check_risk_management_positions s today bal⟩
  rcases execute_trade_shape sym s env with heq | ⟨oid, hent, hgate, hhold, hconf, hprice⟩
  · rw [heq]
    have hp := check_risk_management_positions s env.today env.balance
    exact hp ▸ hinv
  · rw [execute_trade_success sym s env oid hgate hhold hconf hprice hent]
    have hp0 : 0 < env.ticker_last.getD 0 := lt_of_le_of_ne hpr (Ne.symm hprice)
    exact ledger_invariant_dictInsert sym _ s.positions hinv (div_pos hta hp0) hp0

/-- C5 amended witness: the invariant survives the successful `okEnv` run
from the empty ledger. -/
theorem execute_trade_preserves_ledger_invariant_witness :
    ledger_invariant (execute_trade "BTC/USDT" baseState okEnv).state.positions := by
  exact (execute_trade_preserves_ledger_invariant "BTC/USDT" baseState okEnv
    ⟨List.nodup_nil, by simp [baseState]⟩ (by norm_num [baseState])
    (by norm_num [okEnv])).1

/-- C8: when the entry order succeeds but the protective-exit submission
fails (`set_stop_loss_take_profit` returns `(None, None)` because its first
exchange call raised), `execute_trade` still records the entry position in
the ledger and still returns the entry order: the discarded exit result
never unwinds the position. -/
theorem execute_trade_exit_failure_still_records (sym : String) (s : BotState)
    (env : Env)
    (hgate : (check_risk_management s env.today env.balance).1 = true)
    (hhold : (simple_strategy env.closes).1 ≠ .hold)
    (hconf : ¬ (simple_strategy env.closes).2 < 3 / 10)
    (hprice : env.ticker_last.getD 0 ≠ 0)
    (oid : ℕ) (hentry : env.entry_order_id = some oid)
    (hstop : env.stop_id = none) :
    set_stop_loss_take_profit s.stop_loss_percent s.take_profit_percent
        (simple_strategy env.closes).1 (env.ticker_last.getD 0)
        (s.trade_amount / env.ticker_last.getD 0) env.stop_id env.tp_id = none ∧
    (execute_trade sym s env).order = some oid ∧
    (execute_trade sym s env).exits_attempted = true ∧
    dictLookup sym (execute_trade sym s env).state.positions =
      some ⟨(simple_strategy env.closes).1,
            s.trade_amount / env.ticker_last.getD 0,
            env.ticker_last.getD 0, env.today, some oid⟩ := by
  refine ⟨?_, ?_⟩
  · rw [hstop]
    exact set_stop_loss_take_profit_fail _ _ _ _ _ _
  · rw [execute_trade_success sym s env oid hgate hhold hconf hprice hentry]
    exact ⟨rfl, rfl, dictLookup_dictInsert_self sym _ s.positions⟩

/-- `okEnv` with both protective-exit submissions failing. -/
def exitFailEnv : Env := { okEnv with stop_id := none, tp_id := none }

/-- C8 witness: concrete run in which both exit submissions fail but the
position is recorded and the entry order returned. -/
theorem execute_trade_exit_failure_still_records_witness :
    set_stop_loss_take_profit baseState.stop_loss_percent
        baseState.take_profit_percent (simple_strategy exitFailEnv.closes).1
        (exitFailEnv.ticker_last.getD 0)
        (baseState.trade_amount / exitFailEnv.ticker_last.getD 0)
        exitFailEnv.stop_id exitFailEnv.tp_id = none ∧
    (execute_trade "BTC/USDT" baseState exitFailEnv).order = some 7 ∧
    dictLookup "BTC/USDT"
        (execute_trade "BTC/USDT" baseState exitFailEnv).state.positions =
      some ⟨(simple_strategy exitFailEnv.closes).1,
            baseState.trade_amount / exitFailEnv.ticker_last.getD 0,
            exitFailEnv.ticker_last.getD 0, exitFailEnv.today, some 7⟩ := by
  have h := execute_trade_exit_failure_still_records "BTC/USDT" baseState
    exitFailEnv
    (by have := baseState_gate_ok [] (by norm_num)
        simpa [baseState, exitFailEnv, okEnv] using this)
    (by rw [show exitFailEnv.closes = demoCloses from rfl, demoCloses_strategy]; simp)
    (by rw [show exitFailEnv.closes = demoCloses from rfl, demoCloses_strategy]; norm_num)
    (by norm_num [exitFailEnv, okEnv]) 7 rfl rfl
  exact ⟨h.1, h.2.1, h.2.2.2⟩
